import Mathlib

/-!
Verification of the training runner (`playground/common/runner.py`).

The runner is a thin orchestration layer over an external RL trainer,
an external checkpoint manager and an external video encoder.  We give a
shallow embedding of its data model and operations:

* numeric hyperparameters and metrics are modelled with `Nat`/`ℚ`
  (every value the claims touch is exact in the source);
* wall-clock instants (`datetime.now()`) are modelled as `Int` inputs
  supplied by the caller;
* the on-disk checkpoint directory is modelled as an explicit state
  record, with the external checkpoint library's documented behaviour
  (latest-step lookup, restore-by-step, keep-the-5-most-recent
  retention) written out as executable functions;
* Python `dict` values are modelled as association lists, and a raised
  `KeyError`/`IndexError`/`FileNotFoundError` as an explicit error
  constructor that also carries the (already mutated) state, matching
  Python's exception semantics.
-/

namespace Runner

/-- JSON values, the codomain of `to_dict`.  Python's `json` module can
serialize exactly these shapes (numbers, strings, booleans, arrays,
objects); tuples are dumped as arrays. -/
inductive Json : Type where
  | num (val : ℚ)
  | str (val : String)
  | bool (val : Bool)
  | arr (items : List Json)
  | obj (fields : List (String × Json))

/-- Key list of a JSON object (empty for non-objects). -/
def Json.keys : Json → List String
  | .obj fields => fields.map Prod.fst
  | _ => []

/-- The `network_factory` ConfigDict built in `_create_training_config`:
`config_dict.create(policy_hidden_layer_sizes=..., value_hidden_layer_sizes=...,
policy_obs_key=..., value_obs_key=...)`. -/
structure NetworkFactoryConfig where
  policy_hidden_layer_sizes : List Nat
  value_hidden_layer_sizes : List Nat
  policy_obs_key : String
  value_obs_key : String

/-- Model of `ConfigDict.to_dict()` on the network-factory sub-configuration:
a plain mapping, tuples becoming JSON arrays. -/
def NetworkFactoryConfig.to_dict (c : NetworkFactoryConfig) : List (String × Json) :=
  [("policy_hidden_layer_sizes", Json.arr (c.policy_hidden_layer_sizes.map (fun n => Json.num n))),
   ("value_hidden_layer_sizes", Json.arr (c.value_hidden_layer_sizes.map (fun n => Json.num n))),
   ("policy_obs_key", Json.str c.policy_obs_key),
   ("value_obs_key", Json.str c.value_obs_key)]

/-- The `TrainingConfig` dataclass: 17 scalar hyperparameters plus the
nested network-shape sub-configuration. -/
structure TrainingConfig where
  num_timesteps : Nat
  num_evals : Nat
  reward_scaling : ℚ
  episode_length : Nat
  normalize_observations : Bool
  action_repeat : Nat
  unroll_length : Nat
  num_minibatches : Nat
  num_updates_per_batch : Nat
  discounting : ℚ
  learning_rate : ℚ
  entropy_cost : ℚ
  num_envs : Nat
  batch_size : Nat
  max_grad_norm : ℚ
  clipping_epsilon : ℚ
  num_resets_per_eval : Nat
  network_factory : NetworkFactoryConfig

/-- Model of `TrainingConfig.to_dict`: `dataclasses.asdict(self)` (keys in field
declaration order) with the `network_factory` ConfigDict converted via
its own `to_dict()`. -/
def TrainingConfig.to_dict (c : TrainingConfig) : List (String × Json) :=
  [("num_timesteps", Json.num c.num_timesteps),
   ("num_evals", Json.num c.num_evals),
   ("reward_scaling", Json.num c.reward_scaling),
   ("episode_length", Json.num c.episode_length),
   ("normalize_observations", Json.bool c.normalize_observations),
   ("action_repeat", Json.num c.action_repeat),
   ("unroll_length", Json.num c.unroll_length),
   ("num_minibatches", Json.num c.num_minibatches),
   ("num_updates_per_batch", Json.num c.num_updates_per_batch),
   ("discounting", Json.num c.discounting),
   ("learning_rate", Json.num c.learning_rate),
   ("entropy_cost", Json.num c.entropy_cost),
   ("num_envs", Json.num c.num_envs),
   ("batch_size", Json.num c.batch_size),
   ("max_grad_norm", Json.num c.max_grad_norm),
   ("clipping_epsilon", Json.num c.clipping_epsilon),
   ("num_resets_per_eval", Json.num c.num_resets_per_eval),
   ("network_factory", Json.obj c.network_factory.to_dict)]

/-- The declared fields of `TrainingConfig`, in declaration order. -/
def trainingConfigFields : List String :=
  ["num_timesteps", "num_evals", "reward_scaling", "episode_length",
   "normalize_observations", "action_repeat", "unroll_length",
   "num_minibatches", "num_updates_per_batch", "discounting",
   "learning_rate", "entropy_cost", "num_envs", "batch_size",
   "max_grad_norm", "clipping_epsilon", "num_resets_per_eval",
   "network_factory"]

/-- Contract of the external `json` module: `json.dump` followed by
`json.load` returns an equal value on data built from the JSON value
type (the module is external to this repository; this is its documented
round-trip behaviour on JSON-representable data). -/
def jsonDumpLoad (j : Json) : Json := j

/-- Model of `BaseRunner._create_training_config`, a pure function of the debug
flag and the environment configuration's episode length. -/
def create_training_config (is_debug : Bool) (env_episode_length : Nat) : TrainingConfig where
  num_timesteps := if is_debug then 5 else 500000000
  num_evals := 15
  reward_scaling := 1
  episode_length := if is_debug then 1 else env_episode_length
  normalize_observations := true
  action_repeat := 1
  unroll_length := 20
  num_minibatches := if is_debug then 1 else 32
  num_updates_per_batch := if is_debug then 1 else 4
  discounting := 97/100
  learning_rate := 3/10000
  entropy_cost := 1/100
  num_envs := if is_debug then 1 else 32
  batch_size := if is_debug then 2 else 256
  max_grad_norm := 1
  clipping_epsilon := 1/5
  num_resets_per_eval := 1
  network_factory :=
    { policy_hidden_layer_sizes := [512, 256, 128]
      value_hidden_layer_sizes := [512, 256, 128]
      policy_obs_key := "state"
      value_obs_key := "privileged_state" }

/-- First-match lookup in an association list, i.e. Python's `d[k]`
returning `none` where Python raises `KeyError`.  Used for the metrics
mapping (`ℚ`-valued), for JSON objects, and for the step-keyed
checkpoint directory contents. -/
def findKey [DecidableEq κ] (k : κ) : List (κ × α) → Option α
  | [] => none
  | (k', v) :: rest => if k' = k then some v else findKey k rest

/-- The lookup misses exactly the keys that are not in the list. -/
theorem findKey_eq_none_iff [DecidableEq κ] (k : κ) (l : List (κ × α)) :
    findKey k l = none ↔ k ∉ l.map Prod.fst := by
  induction l with
  | nil => simp [findKey]
  | cons p rest ih =>
    rcases p with ⟨k', v'⟩
    by_cases h : k' = k
    · subst h
      simp [findKey]
    · simp only [findKey, if_neg h, List.map_cons, List.mem_cons, ih]
      constructor
      · intro hn hor
        rcases hor with h1 | h2
        · exact h h1.symm
        · exact hn h2
      · intro hn h2
        exact hn (Or.inr h2)

/-- A hit of `findKey` is an element of the list. -/
theorem findKey_mem [DecidableEq κ] (k : κ) (l : List (κ × α)) (v : α)
    (h : findKey k l = some v) : (k, v) ∈ l := by
  induction l with
  | nil => simp [findKey] at h
  | cons p rest ih =>
    rcases p with ⟨k', v'⟩
    by_cases hk : k' = k
    · subst hk
      simp [findKey] at h
      simp [h]
    · simp [findKey, hk] at h
      exact List.mem_cons_of_mem _ (ih h)

/-- The mutable `TrainingState` dataclass.  `P` is the opaque trained
parameter blob type.  `rl_config` is the ConfigDict built from
`TrainingConfig.to_dict`; the plot produced by the progress callback is
a pure side effect and is not part of the state. -/
structure TrainingState (P : Type) where
  x_data : List Nat
  y_data : List ℚ
  y_dataerr : List ℚ
  times : List Int
  rl_config : List (String × Json)
  params : Option P

/-- Model of `BaseRunner.__init__`'s construction of the training state:
empty metric sequences, `times` seeded with the construction time,
`rl_config = config_dict.create(**training_config.to_dict())`. -/
def initTrainingState (P : Type) (t0 : Int) (cfg : TrainingConfig) : TrainingState P where
  x_data := []
  y_data := []
  y_dataerr := []
  times := [t0]
  rl_config := cfg.to_dict
  params := none

/-- Outcome of one `progress_callback` call.  Python mutates
`self.training_state` in place and then raises, so the error
constructor carries the partially mutated state together with the
missing key of the `KeyError`. -/
inductive PCResult (P : Type) where
  | ok (ts : TrainingState P)
  | keyError (missing : String) (ts : TrainingState P)

/-- The training state carried by a `PCResult` (mutated-so-far state on
error). -/
def PCResult.state : PCResult P → TrainingState P
  | .ok ts => ts
  | .keyError _ ts => ts

/-- Model of `BaseRunner.progress_callback(num_steps, metrics)`, statement by
statement.  `now` is the value of `datetime.now()` at the call.  The
appends happen in source order (`times`, then `x_data`, then `y_data`
reading `metrics["eval/episode_reward"]`, then `y_dataerr` reading
`metrics["eval/episode_reward_std"]`); a missing key raises after the
earlier appends have already happened.  The plotting statements are
side effects, except that `plt.xlim` reads
`rl_config["num_timesteps"]`, which can itself raise. -/
def progress_callback (ts : TrainingState P) (num_steps : Nat) (now : Int)
    (metrics : List (String × ℚ)) : PCResult P :=
  let ts1 : TrainingState P := { ts with times := ts.times ++ [now] }
  let ts2 : TrainingState P := { ts1 with x_data := ts1.x_data ++ [num_steps] }
  match findKey "eval/episode_reward" metrics with
  | none => .keyError "eval/episode_reward" ts2
  | some r =>
    let ts3 : TrainingState P := { ts2 with y_data := ts2.y_data ++ [r] }
    match findKey "eval/episode_reward_std" metrics with
    | none => .keyError "eval/episode_reward_std" ts3
    | some s =>
      let ts4 : TrainingState P := { ts3 with y_dataerr := ts3.y_dataerr ++ [s] }
      match findKey "num_timesteps" ts4.rl_config with
      | none => .keyError "num_timesteps" ts4
      | some _ => .ok ts4

/-- One progress tick as delivered by the external trainer: the step
count, the wall clock at the tick, and the metrics mapping. -/
structure Tick where
  num_steps : Nat
  now : Int
  metrics : List (String × ℚ)

/-- A tick whose metrics mapping contains both required keys. -/
def Tick.hasRequiredKeys (t : Tick) : Prop :=
  (findKey "eval/episode_reward" t.metrics).isSome = true ∧
  (findKey "eval/episode_reward_std" t.metrics).isSome = true

/-- The external trainer invoking `progress_callback` once per tick; a
raised `KeyError` aborts the sequence (and training) immediately. -/
def runTicks (ts : TrainingState P) : List Tick → PCResult P
  | [] => .ok ts
  | t :: rest =>
    match progress_callback ts t.num_steps t.now t.metrics with
    | .ok ts' => runTicks ts' rest
    | .keyError k ts' => .keyError k ts'

/-- A `progress_callback` call with both metric keys present and
`num_timesteps` present in `rl_config` succeeds and appends exactly one
entry to each sequence. -/
theorem progress_callback_ok (ts : TrainingState P) (n : Nat) (now : Int)
    (metrics : List (String × ℚ)) (r s : ℚ)
    (h1 : findKey "eval/episode_reward" metrics = some r)
    (h2 : findKey "eval/episode_reward_std" metrics = some s)
    (hcfg : (findKey "num_timesteps" ts.rl_config).isSome = true) :
    progress_callback ts n now metrics =
      .ok { ts with times := ts.times ++ [now], x_data := ts.x_data ++ [n],
                    y_data := ts.y_data ++ [r], y_dataerr := ts.y_dataerr ++ [s] } := by
  obtain ⟨v, hv⟩ := Option.isSome_iff_exists.mp hcfg
  simp [progress_callback, h1, h2, hv]

/-- Any successful `progress_callback` call grew each of the four
sequences by exactly one entry and left `rl_config` unchanged. -/
theorem progress_callback_ok_lengths (ts ts' : TrainingState P) (n : Nat) (now : Int)
    (m : List (String × ℚ)) (h : progress_callback ts n now m = .ok ts') :
    ts'.x_data.length = ts.x_data.length + 1 ∧
    ts'.y_data.length = ts.y_data.length + 1 ∧
    ts'.y_dataerr.length = ts.y_dataerr.length + 1 ∧
    ts'.times.length = ts.times.length + 1 ∧
    ts'.rl_config = ts.rl_config := by
  unfold progress_callback at h
  dsimp only at h
  split at h
  · exact absurd h (by simp)
  · split at h
    · exact absurd h (by simp)
    · split at h
      · exact absurd h (by simp)
      · simp only [PCResult.ok.injEq] at h
        subst h
        simp

/-- Running `N` ticks that all carry the required metric keys succeeds
and grows each sequence by `N`. -/
theorem runTicks_ok (ticks : List Tick) (ts : TrainingState P)
    (hk : ∀ t ∈ ticks, t.hasRequiredKeys)
    (hcfg : (findKey "num_timesteps" ts.rl_config).isSome = true) :
    ∃ ts', runTicks ts ticks = .ok ts' ∧
      ts'.x_data.length = ts.x_data.length + ticks.length ∧
      ts'.y_data.length = ts.y_data.length + ticks.length ∧
      ts'.y_dataerr.length = ts.y_dataerr.length + ticks.length ∧
      ts'.times.length = ts.times.length + ticks.length ∧
      ts'.rl_config = ts.rl_config := by
  induction ticks generalizing ts with
  | nil => exact ⟨ts, rfl, by simp⟩
  | cons t rest ih =>
    obtain ⟨hr, hs⟩ := hk t (List.mem_cons_self t rest)
    obtain ⟨r, hr'⟩ := Option.isSome_iff_exists.mp hr
    obtain ⟨s, hs'⟩ := Option.isSome_iff_exists.mp hs
    have hcall := progress_callback_ok ts t.num_steps t.now t.metrics r s hr' hs' hcfg
    obtain ⟨ts', hrun, hx, hy, he, ht, hc⟩ :=
      ih { ts with times := ts.times ++ [t.now], x_data := ts.x_data ++ [t.num_steps],
                   y_data := ts.y_data ++ [r], y_dataerr := ts.y_dataerr ++ [s] }
        (fun u hu => hk u (List.mem_cons_of_mem t hu)) (by simpa using hcfg)
    simp only [List.length_append, List.length_cons, List.length_nil] at hx hy he ht
    refine ⟨ts', ?_, ?_, ?_, ?_, ?_, ?_⟩
    · simp [runTicks, hcall, hrun]
    · simp only [List.length_cons]; omega
    · simp only [List.length_cons]; omega
    · simp only [List.length_cons]; omega
    · simp only [List.length_cons]; omega
    · simpa using hc

/-- The key `num_timesteps` is always present in the `rl_config` built from a
`TrainingConfig` (it is the first key of `to_dict`). -/
theorem findKey_num_timesteps_to_dict (cfg : TrainingConfig) :
    findKey "num_timesteps" cfg.to_dict = some (Json.num cfg.num_timesteps) := by
  simp [TrainingConfig.to_dict, findKey]

/-- The claim of C2 instantiated at an environment episode length: for
each of the eight listed count-like hyperparameters, the debug value is
1 or 2 and strictly smaller than the non-debug value. -/
def c2CountClaim (el : Nat) : Prop :=
  (((create_training_config true el).num_timesteps = 1 ∨
    (create_training_config true el).num_timesteps = 2) ∧
   (create_training_config true el).num_timesteps < (create_training_config false el).num_timesteps) ∧
  (((create_training_config true el).num_evals = 1 ∨
    (create_training_config true el).num_evals = 2) ∧
   (create_training_config true el).num_evals < (create_training_config false el).num_evals) ∧
  (((create_training_config true el).num_minibatches = 1 ∨
    (create_training_config true el).num_minibatches = 2) ∧
   (create_training_config true el).num_minibatches < (create_training_config false el).num_minibatches) ∧
  (((create_training_config true el).num_updates_per_batch = 1 ∨
    (create_training_config true el).num_updates_per_batch = 2) ∧
   (create_training_config true el).num_updates_per_batch < (create_training_config false el).num_updates_per_batch) ∧
  (((create_training_config true el).num_envs = 1 ∨
    (create_training_config true el).num_envs = 2) ∧
   (create_training_config true el).num_envs < (create_training_config false el).num_envs) ∧
  (((create_training_config true el).batch_size = 1 ∨
    (create_training_config true el).batch_size = 2) ∧
   (create_training_config true el).batch_size < (create_training_config false el).batch_size) ∧
  (((create_training_config true el).unroll_length = 1 ∨
    (create_training_config true el).unroll_length = 2) ∧
   (create_training_config true el).unroll_length < (create_training_config false el).unroll_length) ∧
  (((create_training_config true el).num_resets_per_eval = 1 ∨
    (create_training_config true el).num_resets_per_eval = 2) ∧
   (create_training_config true el).num_resets_per_eval < (create_training_config false el).num_resets_per_eval)

/-- Claim C1 (confirmed): at construction, `x_data`, `y_data` and
`y_dataerr` are empty and `times` holds exactly the construction time;
every successful `progress_callback` call appends exactly one entry to
each of the four sequences; hence after `N` ticks whose metrics carry
both required keys the lengths are `N`, `N`, `N` and `N + 1`. -/
theorem c1_parallel_sequences (P : Type) (t0 : Int) (cfg : TrainingConfig)
    (ticks : List Tick) (hk : ∀ t ∈ ticks, t.hasRequiredKeys) :
    ((initTrainingState P t0 cfg).x_data.length = 0 ∧
     (initTrainingState P t0 cfg).y_data.length = 0 ∧
     (initTrainingState P t0 cfg).y_dataerr.length = 0 ∧
     (initTrainingState P t0 cfg).times = [t0]) ∧
    (∀ (ts ts' : TrainingState P) (n : Nat) (now : Int) (m : List (String × ℚ)),
      progress_callback ts n now m = .ok ts' →
      ts'.x_data.length = ts.x_data.length + 1 ∧
      ts'.y_data.length = ts.y_data.length + 1 ∧
      ts'.y_dataerr.length = ts.y_dataerr.length + 1 ∧
      ts'.times.length = ts.times.length + 1) ∧
    (∃ ts', runTicks (initTrainingState P t0 cfg) ticks = .ok ts' ∧
      ts'.x_data.length = ticks.length ∧
      ts'.y_data.length = ticks.length ∧
      ts'.y_dataerr.length = ticks.length ∧
      ts'.times.length = ticks.length + 1) := by
  refine ⟨⟨rfl, rfl, rfl, rfl⟩, ?_, ?_⟩
  · intro ts ts' n now m h
    have := progress_callback_ok_lengths ts ts' n now m h
    exact ⟨this.1, this.2.1, this.2.2.1, this.2.2.2.1⟩
  · obtain ⟨ts', hrun, hx, hy, he, ht, _⟩ :=
      runTicks_ok ticks (initTrainingState P t0 cfg) hk
        (by simp [initTrainingState, findKey_num_timesteps_to_dict])
    exact ⟨ts', hrun, by simpa [initTrainingState] using hx,
           by simpa [initTrainingState] using hy,
           by simpa [initTrainingState] using he,
           by simp [initTrainingState] at ht; omega⟩

/-- Concrete instantiation of C1: one well-formed tick from the fresh
state yields lengths 1, 1, 1, 2. -/
theorem c1_parallel_sequences_witness :
    ∃ ts', runTicks (initTrainingState Nat 0 (create_training_config true 1))
        [⟨100, 5, [("eval/episode_reward", 3), ("eval/episode_reward_std", 1)]⟩] = .ok ts' ∧
      ts'.x_data.length = 1 ∧ ts'.y_data.length = 1 ∧
      ts'.y_dataerr.length = 1 ∧ ts'.times.length = 2 :=
  (c1_parallel_sequences Nat 0 (create_training_config true 1)
    [⟨100, 5, [("eval/episode_reward", 3), ("eval/episode_reward_std", 1)]⟩]
    (by intro t ht
        simp only [List.mem_singleton] at ht
        subst ht
        constructor <;> simp [findKey, Tick.hasRequiredKeys])).2.2

/-- Claim C2 counterexample: the claim fails at environment episode
length 1000 — in debug mode `num_timesteps` is 5 (not 1 or 2), and
`num_evals`, `unroll_length` and `num_resets_per_eval` are identical in
the two modes, hence not strictly smaller in debug mode. -/
theorem c2_count_claim_counterexample : ¬ c2CountClaim 1000 := by
  intro h
  have := h.1.1
  simp [create_training_config] at this

/-- Claim C2 (corrected): only `num_timesteps`, `episode_length`,
`num_minibatches`, `num_updates_per_batch`, `num_envs` and `batch_size`
depend on the debug flag.  In debug mode the last four are 1 or 2,
`episode_length` is 1 and `num_timesteps` is 5, each strictly smaller
than its non-debug counterpart (`episode_length` strictly whenever the
environment's episode length exceeds 1); `num_evals`, `unroll_length`
and `num_resets_per_eval` are the same in both modes. -/
theorem c2_debug_config_values (el : Nat) (h : 1 < el) :
    (create_training_config true el).num_timesteps = 5 ∧
    (create_training_config true el).num_timesteps < (create_training_config false el).num_timesteps ∧
    (create_training_config true el).episode_length = 1 ∧
    (create_training_config true el).episode_length < (create_training_config false el).episode_length ∧
    (create_training_config true el).num_minibatches = 1 ∧
    (create_training_config true el).num_minibatches < (create_training_config false el).num_minibatches ∧
    (create_training_config true el).num_updates_per_batch = 1 ∧
    (create_training_config true el).num_updates_per_batch < (create_training_config false el).num_updates_per_batch ∧
    (create_training_config true el).num_envs = 1 ∧
    (create_training_config true el).num_envs < (create_training_config false el).num_envs ∧
    (create_training_config true el).batch_size = 2 ∧
    (create_training_config true el).batch_size < (create_training_config false el).batch_size ∧
    (create_training_config true el).num_evals = (create_training_config false el).num_evals ∧
    (create_training_config true el).unroll_length = (create_training_config false el).unroll_length ∧
    (create_training_config true el).num_resets_per_eval = (create_training_config false el).num_resets_per_eval := by
  refine ⟨rfl, by norm_num [create_training_config], rfl, ?_, rfl,
          by norm_num [create_training_config], rfl,
          by norm_num [create_training_config], rfl,
          by norm_num [create_training_config], rfl,
          by norm_num [create_training_config], rfl, rfl, rfl⟩
  simpa [create_training_config] using h

/-- Concrete instantiation of C2's amended statement at episode
length 1000. -/
theorem c2_debug_config_values_witness :
    (create_training_config true 1000).num_timesteps = 5 ∧
    (create_training_config true 1000).episode_length <
      (create_training_config false 1000).episode_length :=
  ⟨(c2_debug_config_values 1000 (by norm_num)).1,
   (c2_debug_config_values 1000 (by norm_num)).2.2.2.1⟩

/-- The on-disk directory `checkpoints/<env_name>`.  `checkpoints`
lists the saved steps most-recent-save first, each with the parameter
blob stored by the external checkpoint manager (the runner stores
`training_state.params`, an `Option P`).  `config_files` holds the
`config_<step>.json` snapshots; `config_json` is the `config.json`
file. -/
structure CheckpointDir (P : Type) where
  checkpoints : List (Nat × Option P)
  config_files : List (Nat × List (String × Json))
  config_json : Option (List (String × Json))

/-- The filesystem as seen by the runner for one environment name:
`none` models an absent `checkpoints/<env_name>` directory. -/
structure Fs (P : Type) where
  dir : Option (CheckpointDir P)

/-- Checkpoints visible on disk (empty when the directory is absent). -/
def Fs.checkpoints (fs : Fs P) : List (Nat × Option P) :=
  match fs.dir with
  | none => []
  | some d => d.checkpoints

/-- The `config_<step>.json` files visible on disk. -/
def Fs.config_files (fs : Fs P) : List (Nat × List (String × Json)) :=
  match fs.dir with
  | none => []
  | some d => d.config_files

/-- The `config.json` file, when present. -/
def Fs.config_json (fs : Fs P) : Option (List (String × Json)) :=
  match fs.dir with
  | none => none
  | some d => d.config_json

/-- Model of `Path.mkdir(parents=True, exist_ok=True)`: the existing directory,
or a fresh empty one. -/
def Fs.mkdirDir (fs : Fs P) : CheckpointDir P :=
  match fs.dir with
  | none => { checkpoints := [], config_files := [], config_json := none }
  | some d => d

/-- Drop every entry keyed by `s` (overwriting a file or checkpoint of
the same step replaces the old one). -/
def removeStep (s : Nat) : List (Nat × α) → List (Nat × α)
  | [] => []
  | (t, v) :: rest => if t = s then removeStep s rest else (t, v) :: removeStep s rest

theorem mem_removeStep (s : Nat) (l : List (Nat × α)) (c : Nat × α)
    (h : c ∈ removeStep s l) : c ∈ l := by
  induction l with
  | nil => simp [removeStep] at h
  | cons p rest ih =>
    rcases p with ⟨t, v⟩
    by_cases ht : t = s
    · simp only [removeStep, if_pos ht] at h
      exact List.mem_cons_of_mem _ (ih h)
    · simp only [removeStep, if_neg ht, List.mem_cons] at h
      rcases h with h | h
      · exact h ▸ List.mem_cons_self _ _
      · exact List.mem_cons_of_mem _ (ih h)

theorem mem_removeStep_of_mem (s : Nat) (l : List (Nat × α)) (c : Nat × α)
    (hc : c ∈ l) (hne : c.1 ≠ s) : c ∈ removeStep s l := by
  induction l with
  | nil => simp at hc
  | cons p rest ih =>
    rcases p with ⟨t, v⟩
    rcases List.mem_cons.mp hc with h | h
    · subst h
      simp only [removeStep, if_neg hne]
      exact List.mem_cons_self _ _
    · by_cases ht : t = s
      · simp only [removeStep, if_pos ht]
        exact ih h
      · simp only [removeStep, if_neg ht]
        exact List.mem_cons_of_mem _ (ih h)

theorem length_removeStep_le (s : Nat) (l : List (Nat × α)) :
    (removeStep s l).length ≤ l.length := by
  induction l with
  | nil => simp [removeStep]
  | cons p rest ih =>
    rcases p with ⟨t, v⟩
    by_cases ht : t = s
    · simp only [removeStep, if_pos ht, List.length_cons]
      omega
    · simp only [removeStep, if_neg ht, List.length_cons]
      omega

/-- Model of `CheckpointManager.latest_step()` of the external checkpoint
library: the largest saved step, `none` when no checkpoints exist. -/
def latest_step : List (Nat × α) → Option Nat
  | [] => none
  | (s, _) :: rest =>
    match latest_step rest with
    | none => some s
    | some m => some (max s m)

theorem latest_step_eq_none_iff (l : List (Nat × α)) :
    latest_step l = none ↔ l = [] := by
  cases l with
  | nil => simp [latest_step]
  | cons p rest =>
    rcases p with ⟨s, v⟩
    simp only [latest_step]
    cases latest_step rest <;> simp

theorem latest_step_mem (l : List (Nat × α)) (m : Nat)
    (h : latest_step l = some m) : m ∈ l.map Prod.fst := by
  induction l generalizing m with
  | nil => simp [latest_step] at h
  | cons p rest ih =>
    rcases p with ⟨s, v⟩
    simp only [latest_step] at h
    cases hr : latest_step rest with
    | none =>
      rw [hr] at h
      simp only [Option.some.injEq] at h
      simp [← h]
    | some m' =>
      rw [hr] at h
      simp only [Option.some.injEq] at h
      rcases Nat.le_total s m' with hle | hle
      · have : m = m' := by omega
        subst this
        exact List.mem_cons_of_mem _ (ih m hr)
      · have : m = s := by omega
        simp [this]

theorem latest_step_is_max (l : List (Nat × α)) (m : Nat)
    (h : latest_step l = some m) : ∀ s ∈ l.map Prod.fst, s ≤ m := by
  induction l generalizing m with
  | nil => simp
  | cons p rest ih =>
    rcases p with ⟨s, v⟩
    simp only [latest_step] at h
    intro t ht
    simp only [List.map_cons, List.mem_cons] at ht
    cases hr : latest_step rest with
    | none =>
      rw [hr] at h
      simp only [Option.some.injEq] at h
      rcases ht with ht | ht
      · omega
      · exact absurd ht (by
          have : rest = [] := (latest_step_eq_none_iff rest).mp hr
          simp [this])
    | some m' =>
      rw [hr] at h
      simp only [Option.some.injEq] at h
      rcases ht with ht | ht
      · omega
      · have := ih m' hr t ht
        omega

/-- The step `save_model` keys the checkpoint by:
`x_data[-1] if x_data else 0`. -/
def lastRecordedStep (ts : TrainingState P) : Nat :=
  match ts.x_data.getLast? with
  | some s => s
  | none => 0

/-- Model of `BaseRunner.save_model`: creates `checkpoints/<env_name>` if
needed, keys the checkpoint by `lastRecordedStep`, hands
`training_state.params` to the external checkpoint manager created
with `max_to_keep=5` (which keeps the 5 most recently saved
checkpoints and evicts the rest), and writes `config_<step>.json` with
`training_config.to_dict()`.  It does not touch `config.json`. -/
def save_model (fs : Fs P) (ts : TrainingState P) (cfg : TrainingConfig) : Fs P :=
  let d := fs.mkdirDir
  let step := lastRecordedStep ts
  { dir := some
      { checkpoints := ((step, ts.params) :: removeStep step d.checkpoints).take 5
        config_files := (step, cfg.to_dict) :: removeStep step d.config_files
        config_json := d.config_json } }

/-- Model of `BaseRunner._save_rl_config_dict`: creates the directory and writes
`config.json` with `training_config.to_dict()`.  Defined in the source
but never called anywhere in it (its `path` argument is also unused). -/
def save_rl_config_dict (fs : Fs P) (cfg : TrainingConfig) : Fs P :=
  let d := fs.mkdirDir
  { dir := some { d with config_json := some cfg.to_dict } }

/-- The not-found conditions `load_model` can raise: a missing
directory or a missing-latest raise `FileNotFoundError` directly in the
source; restoring a never-saved step raises the external checkpoint
manager's not-found error. -/
inductive LoadError where
  | dirNotFound
  | noCheckpoints
  | stepNotFound (step : Nat)

/-- Model of `BaseRunner.load_model(step)`.  Raises when the directory is
missing; with no explicit step asks the manager for `latest_step()`
and raises when there is none; restoring a never-saved step fails with
the manager's not-found error.  On success stores the restored blob in
`training_state.params` and reads `config_<step>.json` only when that
file exists (returned as the third component; purely informational). -/
def load_model (fs : Fs P) (step_arg : Option Nat) (ts : TrainingState P) :
    Except LoadError (TrainingState P × Nat × Option (List (String × Json))) :=
  match fs.dir with
  | none => .error .dirNotFound
  | some d =>
    let chosen : Option Nat :=
      match step_arg with
      | some s => some s
      | none => latest_step d.checkpoints
    match chosen with
    | none => .error .noCheckpoints
    | some step =>
      match findKey step d.checkpoints with
      | none => .error (.stepNotFound step)
      | some blob =>
        .ok ({ ts with params := blob }, step, findKey step d.config_files)

theorem mkdirDir_checkpoints (fs : Fs P) : fs.mkdirDir.checkpoints = fs.checkpoints := by
  rcases fs with ⟨_ | d⟩ <;> rfl

theorem mkdirDir_config_files (fs : Fs P) : fs.mkdirDir.config_files = fs.config_files := by
  rcases fs with ⟨_ | d⟩ <;> rfl

theorem mkdirDir_config_json (fs : Fs P) : fs.mkdirDir.config_json = fs.config_json := by
  rcases fs with ⟨_ | d⟩ <;> rfl

/-- Claim C3 (confirmed): `load_model` fails with a not-found condition
exactly when the requested checkpoint is unavailable — the directory is
missing, or latest is requested with nothing saved, or an explicit
never-saved step is requested.  With no explicit step after at least
one save it succeeds and restores the stored blob of the highest saved
step into `training_state.params`. -/
theorem c3_load_model_not_found (P : Type) (fs : Fs P) (step_arg : Option Nat)
    (ts : TrainingState P) :
    ((∃ e, load_model fs step_arg ts = .error e) ↔
      (fs.dir = none ∨
       (step_arg = none ∧ fs.checkpoints = []) ∨
       (∃ s, step_arg = some s ∧ s ∉ fs.checkpoints.map Prod.fst))) ∧
    (step_arg = none → fs.dir ≠ none → fs.checkpoints ≠ [] →
      ∃ m blob, latest_step fs.checkpoints = some m ∧
        (∀ s ∈ fs.checkpoints.map Prod.fst, s ≤ m) ∧
        findKey m fs.checkpoints = some blob ∧
        load_model fs none ts =
          .ok ({ ts with params := blob }, m, findKey m fs.config_files)) := by
  rcases fs with ⟨_ | d⟩
  · refine ⟨?_, ?_⟩
    · constructor
      · intro _
        exact Or.inl rfl
      · intro _
        exact ⟨.dirNotFound, rfl⟩
    · intro _ hd
      exact absurd rfl hd
  · rcases step_arg with _ | s
    · cases hl : latest_step d.checkpoints with
      | none =>
        have hnil : d.checkpoints = [] := (latest_step_eq_none_iff _).mp hl
        refine ⟨?_, ?_⟩
        · constructor
          · intro _
            exact Or.inr (Or.inl ⟨rfl, hnil⟩)
          · intro _
            exact ⟨.noCheckpoints, by simp [load_model, hl]⟩
        · intro _ _ hne
          exact absurd hnil hne
      | some m =>
        have hmem := latest_step_mem d.checkpoints m hl
        have hmax := latest_step_is_max d.checkpoints m hl
        have hfind : findKey m d.checkpoints ≠ none :=
          fun hn => ((findKey_eq_none_iff m d.checkpoints).mp hn) hmem
        obtain ⟨blob, hblob⟩ := Option.ne_none_iff_exists'.mp hfind
        have hload : load_model ⟨some d⟩ none ts =
            .ok ({ ts with params := blob }, m, findKey m d.config_files) := by
          simp [load_model, hl, hblob]
        refine ⟨?_, ?_⟩
        · constructor
          · rintro ⟨e, he⟩
            rw [hload] at he
            simp at he
          · rintro (hd | ⟨-, hnil⟩ | ⟨t, ht, -⟩)
            · exact Option.noConfusion hd
            · rw [(show d.checkpoints = [] from hnil)] at hl
              simp [latest_step] at hl
            · exact Option.noConfusion ht
        · intro _ _ _
          exact ⟨m, blob, hl, hmax, hblob, hload⟩
    · cases hk : findKey s d.checkpoints with
      | none =>
        refine ⟨?_, ?_⟩
        · constructor
          · intro _
            exact Or.inr (Or.inr ⟨s, rfl, (findKey_eq_none_iff s d.checkpoints).mp hk⟩)
          · intro _
            exact ⟨.stepNotFound s, by simp [load_model, hk]⟩
        · intro h
          exact Option.noConfusion h
      | some blob =>
        have hmem : s ∈ d.checkpoints.map Prod.fst :=
          List.mem_map.mpr ⟨(s, blob), findKey_mem s d.checkpoints blob hk, rfl⟩
        have hload : load_model ⟨some d⟩ (some s) ts =
            .ok ({ ts with params := blob }, s, findKey s d.config_files) := by
          simp [load_model, hk]
        refine ⟨?_, ?_⟩
        · constructor
          · rintro ⟨e, he⟩
            rw [hload] at he
            simp at he
          · rintro (hd | ⟨hn, -⟩ | ⟨t, ht, hmem'⟩)
            · exact Option.noConfusion hd
            · exact Option.noConfusion hn
            · obtain rfl : s = t := Option.some.inj ht
              exact absurd hmem hmem'
        · intro h
          exact Option.noConfusion h

/-- Concrete instantiation of C3: with one saved checkpoint at step 3
holding blob 7, a latest-load restores exactly that blob. -/
theorem c3_load_model_not_found_witness :
    ∃ m blob,
      latest_step (Fs.checkpoints (P := Nat) ⟨some ⟨[(3, some 7)], [], none⟩⟩) = some m ∧
      (∀ s ∈ (Fs.checkpoints (P := Nat) ⟨some ⟨[(3, some 7)], [], none⟩⟩).map Prod.fst, s ≤ m) ∧
      findKey m (Fs.checkpoints (P := Nat) ⟨some ⟨[(3, some 7)], [], none⟩⟩) = some blob ∧
      load_model (P := Nat) ⟨some ⟨[(3, some 7)], [], none⟩⟩ none
          (initTrainingState Nat 0 (create_training_config true 1)) =
        .ok ({ initTrainingState Nat 0 (create_training_config true 1) with params := blob }, m,
             findKey m (Fs.config_files (P := Nat) ⟨some ⟨[(3, some 7)], [], none⟩⟩)) :=
  (c3_load_model_not_found Nat ⟨some ⟨[(3, some 7)], [], none⟩⟩ none
      (initTrainingState Nat 0 (create_training_config true 1))).2 rfl
    (by simp) (by simp [Fs.checkpoints])

/-- Claim C4 (confirmed): `save_model` keys the checkpoint by the last
recorded step (0 when none), stores the parameter blob there, writes
`config_<step>.json` with the full hyperparameter mapping for that same
step, and the retention policy keeps at most 5 checkpoints, evicting
none while fewer than 5 are present. -/
theorem c4_save_model_step_and_retention (P : Type) (fs : Fs P) (ts : TrainingState P)
    (cfg : TrainingConfig) :
    (save_model fs ts cfg).dir ≠ none ∧
    findKey (lastRecordedStep ts) (save_model fs ts cfg).checkpoints = some ts.params ∧
    findKey (lastRecordedStep ts) (save_model fs ts cfg).config_files = some cfg.to_dict ∧
    (save_model fs ts cfg).checkpoints.length ≤ 5 ∧
    (∀ c ∈ (save_model fs ts cfg).checkpoints,
      c = (lastRecordedStep ts, ts.params) ∨ c ∈ fs.checkpoints) ∧
    (fs.checkpoints.length < 5 →
      ∀ c ∈ fs.checkpoints, c.1 ≠ lastRecordedStep ts →
        c ∈ (save_model fs ts cfg).checkpoints) := by
  refine ⟨by simp [save_model], ?_, ?_, ?_, ?_, ?_⟩
  · show findKey (lastRecordedStep ts)
      (((lastRecordedStep ts, ts.params) ::
        removeStep (lastRecordedStep ts) fs.mkdirDir.checkpoints).take 5) = some ts.params
    rw [List.take_succ_cons]
    simp [findKey]
  · show findKey (lastRecordedStep ts)
      ((lastRecordedStep ts, cfg.to_dict) ::
       removeStep (lastRecordedStep ts) fs.mkdirDir.config_files) = some cfg.to_dict
    simp [findKey]
  · show (((lastRecordedStep ts, ts.params) ::
      removeStep (lastRecordedStep ts) fs.mkdirDir.checkpoints).take 5).length ≤ 5
    rw [List.length_take]
    omega
  · intro c hc
    have hc' : c ∈ (lastRecordedStep ts, ts.params) ::
        removeStep (lastRecordedStep ts) fs.mkdirDir.checkpoints :=
      List.mem_of_mem_take hc
    rcases List.mem_cons.mp hc' with h | h
    · exact Or.inl h
    · exact Or.inr (mkdirDir_checkpoints fs ▸ mem_removeStep _ _ _ h)
  · intro hlen c hc hne
    show c ∈ ((lastRecordedStep ts, ts.params) ::
        removeStep (lastRecordedStep ts) fs.mkdirDir.checkpoints).take 5
    rw [mkdirDir_checkpoints fs]
    have hmem : c ∈ removeStep (lastRecordedStep ts) fs.checkpoints :=
      mem_removeStep_of_mem _ _ _ hc hne
    have h1 := length_removeStep_le (lastRecordedStep ts) fs.checkpoints
    rw [List.take_of_length_le (by simp only [List.length_cons]; omega)]
    exact List.mem_cons_of_mem _ hmem

/-- Concrete instantiation of C4: saving from a state whose last
recorded step is 42 stores the blob under key 42. -/
theorem c4_save_model_step_and_retention_witness :
    findKey 42 (save_model (P := Nat) ⟨none⟩
        { x_data := [10, 42], y_data := [1, 2], y_dataerr := [0, 0], times := [0, 1, 2],
          rl_config := [], params := some 7 }
        (create_training_config true 1)).checkpoints = some (some 7) :=
  (c4_save_model_step_and_retention Nat ⟨none⟩
      { x_data := [10, 42], y_data := [1, 2], y_dataerr := [0, 0], times := [0, 1, 2],
        rl_config := [], params := some 7 }
      (create_training_config true 1)).2.1

/-- Claim C5 counterexample: a save on a fresh filesystem leaves no
`config.json` — `save_model` never writes that file. -/
theorem c5_save_leaves_no_config_json :
    ¬ (∃ c, (save_model (P := Nat) ⟨none⟩
        (initTrainingState Nat 0 (create_training_config true 1))
        (create_training_config true 1)).config_json = some c) := by
  rintro ⟨c, hc⟩
  simp [save_model, Fs.config_json, Fs.mkdirDir] at hc

/-- Claim C5 (corrected): `save_model` writes the per-step
`config_<step>.json` but leaves `config.json` exactly as it was;
`config.json` would be written (unconditionally) only by
`_save_rl_config_dict`, which nothing in the file calls. -/
theorem c5_config_json_not_written_by_save (P : Type) (fs : Fs P) (ts : TrainingState P)
    (cfg : TrainingConfig) :
    (save_model fs ts cfg).config_json = fs.config_json ∧
    findKey (lastRecordedStep ts) (save_model fs ts cfg).config_files = some cfg.to_dict ∧
    (save_rl_config_dict fs cfg).config_json = some cfg.to_dict := by
  refine ⟨?_, ?_, ?_⟩
  · show fs.mkdirDir.config_json = fs.config_json
    exact mkdirDir_config_json fs
  · show findKey (lastRecordedStep ts)
      ((lastRecordedStep ts, cfg.to_dict) ::
       removeStep (lastRecordedStep ts) fs.mkdirDir.config_files) = some cfg.to_dict
    simp [findKey]
  · rfl

/-- Claim C8 (confirmed): the outcome of `load_model` is decided by the
checkpoints alone — two directories with the same checkpoints but
different `config_<step>.json` files fail identically and restore the
same parameters; on success the snapshot component equals the lookup of
the chosen step among the snapshot files, so a missing snapshot is
non-fatal and never changes the restored parameters. -/
theorem c8_load_model_snapshot_optional (P : Type) (cps : List (Nat × Option P))
    (cf cf' : List (Nat × List (String × Json))) (cj cj' : Option (List (String × Json)))
    (step_arg : Option Nat) (ts : TrainingState P) :
    (∀ e, (load_model ⟨some ⟨cps, cf, cj⟩⟩ step_arg ts = .error e) ↔
          (load_model ⟨some ⟨cps, cf', cj'⟩⟩ step_arg ts = .error e)) ∧
    (∀ ts1 s1 c1, load_model ⟨some ⟨cps, cf, cj⟩⟩ step_arg ts = .ok (ts1, s1, c1) →
      c1 = findKey s1 cf ∧
      load_model ⟨some ⟨cps, cf', cj'⟩⟩ step_arg ts = .ok (ts1, s1, findKey s1 cf')) := by
  rcases step_arg with _ | s
  · cases hl : latest_step cps with
    | none =>
      refine ⟨?_, ?_⟩
      · intro e
        simp [load_model, hl]
      · intro ts1 s1 c1 h
        simp [load_model, hl] at h
    | some m =>
      cases hk : findKey m cps with
      | none =>
        refine ⟨?_, ?_⟩
        · intro e
          simp [load_model, hl, hk]
        · intro ts1 s1 c1 h
          simp [load_model, hl, hk] at h
      | some blob =>
        refine ⟨?_, ?_⟩
        · intro e
          simp [load_model, hl, hk]
        · intro ts1 s1 c1 h
          simp only [load_model, hl, hk, Except.ok.injEq, Prod.mk.injEq] at h
          obtain ⟨h1, h2, h3⟩ := h
          subst h1
          subst h2
          subst h3
          exact ⟨rfl, by simp [load_model, hl, hk]⟩
  · cases hk : findKey s cps with
    | none =>
      refine ⟨?_, ?_⟩
      · intro e
        simp [load_model, hk]
      · intro ts1 s1 c1 h
        simp [load_model, hk] at h
    | some blob =>
      refine ⟨?_, ?_⟩
      · intro e
        simp [load_model, hk]
      · intro ts1 s1 c1 h
        simp only [load_model, hk, Except.ok.injEq, Prod.mk.injEq] at h
        obtain ⟨h1, h2, h3⟩ := h
        subst h1
        subst h2
        subst h3
        exact ⟨rfl, by simp [load_model, hk]⟩

/-- Claim C6 (confirmed): `to_dict` yields exactly the declared fields —
the 17 scalar hyperparameters plus `network_factory` — with the nested
network-shape configuration flattened to a plain JSON object (its four
keys; every value inhabits the JSON value type, so nothing opaque
remains and the result is JSON-serializable), and the external json
round-trip preserves the key set. -/
theorem c6_to_dict_round_trip (cfg : TrainingConfig) :
    cfg.to_dict.map Prod.fst = trainingConfigFields ∧
    findKey "network_factory" cfg.to_dict = some (Json.obj cfg.network_factory.to_dict) ∧
    cfg.network_factory.to_dict.map Prod.fst =
      ["policy_hidden_layer_sizes", "value_hidden_layer_sizes",
       "policy_obs_key", "value_obs_key"] ∧
    (jsonDumpLoad (Json.obj cfg.to_dict)).keys = trainingConfigFields := by
  refine ⟨rfl, ?_, rfl, rfl⟩
  simp [TrainingConfig.to_dict, findKey]

/-- The evaluation-time capabilities used by `BaseRunner.evaluate`:
`jit_reset`, `jit_step`, `state.reward`, the policy's
`jit_inference_fn` (the observation is part of the state `S`),
`jax.random.split` and `jax.random.PRNGKey`.  `A` is the action type
and `R` the RNG key type. -/
structure EvalSetup (S A R : Type) where
  reset : R → S
  step : S → A → S
  reward : S → ℚ
  act : S → R → A
  split : R → R × R
  prngKey : Nat → R

/-- The inner loop of `evaluate`: `episode_length` iterations of
`act_rng, rng = split(rng); ctrl = inference(state, act_rng);
state = step(state, ctrl)`, appending each post-step state to the
rollout. -/
def rollout_steps (e : EvalSetup S A R) : Nat → S → R → List S
  | 0, _, _ => []
  | n + 1, s, rng =>
    let actRng := (e.split rng).1
    let nextRng := (e.split rng).2
    let s' := e.step s (e.act s actRng)
    s' :: rollout_steps e n s' nextRng

/-- One episode of `BaseRunner.evaluate` together with its
`render_episode`/`save_video` call: the rollout starts with the reset
state (`rollout = [state]` before the loop), the rewards of the whole
rollout are summed and logged, and the frames are encoded into
`output_<episode>.mp4`. -/
def evaluate_episode (e : EvalSetup S A R) (episode_length : Nat) (episode : Nat) :
    ℚ × String :=
  let rng := e.prngKey episode
  let s0 := e.reset rng
  let rollout := s0 :: rollout_steps e episode_length s0 rng
  ((rollout.map e.reward).sum, "output_" ++ toString episode ++ ".mp4")

/-- Model of `BaseRunner.evaluate`: one episode per
`training_config.num_resets_per_eval`, each running
`env_config.episode_length` steps; returns each episode's summed
reward and video filename. -/
def evaluate (e : EvalSetup S A R) (cfg : TrainingConfig) (env_episode_length : Nat) :
    List (ℚ × String) :=
  (List.range cfg.num_resets_per_eval).map (evaluate_episode e env_episode_length)

/-- When every stepped state carries reward 1, the post-reset rollout
rewards sum to the number of steps. -/
theorem rollout_steps_reward_sum (e : EvalSetup S A R)
    (hstep : ∀ s a, e.reward (e.step s a) = 1) :
    ∀ (n : Nat) (s : S) (rng : R),
      ((rollout_steps e n s rng).map e.reward).sum = n := by
  intro n
  induction n with
  | zero =>
    intro s rng
    simp [rollout_steps]
  | succ n ih =>
    intro s rng
    simp only [rollout_steps, List.map_cons, List.sum_cons, hstep, ih]
    push_cast
    ring

/-- Claim C7 (confirmed): `evaluate` sums the rewards of the accumulated
rollout per episode; for an environment whose step always yields reward
1 (reset states carry reward 0, the environment contract) and episode
length 4, the logged episode total is 4 and, since
`num_resets_per_eval` is always 1, exactly one video `output_0.mp4` is
produced, for episode 0. -/
theorem c7_evaluate_episode_reward (S A R : Type) (e : EvalSetup S A R)
    (is_debug : Bool) (el : Nat)
    (hstep : ∀ s a, e.reward (e.step s a) = 1)
    (hreset : ∀ r, e.reward (e.reset r) = 0) :
    evaluate e (create_training_config is_debug el) 4 = [(4, "output_0.mp4")] := by
  have hsum := rollout_steps_reward_sum e hstep 4 (e.reset (e.prngKey 0)) (e.prngKey 0)
  have hone : (create_training_config is_debug el).num_resets_per_eval = 1 := rfl
  have hr1 : List.range 1 = [0] := rfl
  simp [evaluate, hone, hr1, evaluate_episode, hsum, hreset]
  rfl

/-- A stub environment whose step function always returns reward 1 and
whose reset state has reward 0. -/
def stubEnv : EvalSetup Nat Unit Unit where
  reset := fun _ => 0
  step := fun s _ => s + 1
  reward := fun s => if s = 0 then 0 else 1
  act := fun _ _ => ()
  split := fun _ => ((), ())
  prngKey := fun _ => ()

/-- Concrete instantiation of C7 on the stub environment. -/
theorem c7_evaluate_episode_reward_witness :
    evaluate stubEnv (create_training_config true 1) 4 = [(4, "output_0.mp4")] :=
  c7_evaluate_episode_reward Nat Unit Unit stubEnv true 1
    (fun s _ => by simp [stubEnv])
    (fun _ => by simp [stubEnv])

/-- The errors `train` can surface: a `KeyError` escaping
`progress_callback`, or the `IndexError` from reading `times[1]`. -/
inductive TrainError where
  | keyError (missing : String)
  | timesIndexError

/-- Model of `BaseRunner.train`: invokes the external trainer, which calls
`progress_callback` once per evaluation tick (an exception raised in
the callback propagates and aborts training).  After the trainer
returns it logs `times[1] - times[0]` (time to jit) and
`times[-1] - times[1]` (time to train); `times[1]` raises `IndexError`
when `times` has fewer than two entries.  The two durations stand in
for the log lines; the optional `save_model` call afterwards is guarded
by `args.save_model` and modelled separately. -/
def train (ts : TrainingState P) (ticks : List Tick) :
    Except TrainError (TrainingState P × Int × Int) :=
  match runTicks ts ticks with
  | .keyError k _ => .error (.keyError k)
  | .ok ts1 =>
    match ts1.times[1]?, ts1.times[0]?, ts1.times.getLast? with
    | some t1, some t0, some tl => .ok (ts1, t1 - t0, tl - t1)
    | _, _, _ => .error .timesIndexError

/-- A run whose final `times` has at least two entries completes
normally. -/
theorem train_ok_of_two_times (ts0 : TrainingState P) (ticks : List Tick)
    (ts1 : TrainingState P) (hrun : runTicks ts0 ticks = .ok ts1)
    (hlen : 2 ≤ ts1.times.length) :
    ∃ out, train ts0 ticks = .ok out := by
  have hne : ts1.times ≠ [] := by
    intro h
    rw [h] at hlen
    simp at hlen
  have h1 : ts1.times[1]? = some ts1.times[1] := List.getElem?_eq_getElem (by omega)
  have h0 : ts1.times[0]? = some ts1.times[0] := List.getElem?_eq_getElem (by omega)
  have hl : ts1.times.getLast? = some (ts1.times.getLast hne) :=
    List.getLast?_eq_getLast _ hne
  refine ⟨(ts1, ts1.times[1] - ts1.times[0], ts1.times.getLast hne - ts1.times[1]), ?_⟩
  simp only [train, hrun, h1, h0, hl]

/-- Claim C9 (confirmed): with no progress tick the training state still
holds only the construction time, and `train` raises `IndexError`
reading `times[1]` instead of returning; any normal completion
therefore implies the trainer invoked the callback at least once, and
one well-formed tick already suffices for normal completion. -/
theorem c9_train_needs_progress_tick (P : Type) (t0 : Int) (cfg : TrainingConfig) :
    train (initTrainingState P t0 cfg) [] = .error .timesIndexError ∧
    (∀ (ticks : List Tick) out,
      train (initTrainingState P t0 cfg) ticks = .ok out → ticks ≠ []) ∧
    (∀ tk : Tick, tk.hasRequiredKeys →
      ∃ out, train (initTrainingState P t0 cfg) [tk] = .ok out) := by
  refine ⟨rfl, ?_, ?_⟩
  · intro ticks out h hnil
    subst hnil
    have hbad : (Except.error TrainError.timesIndexError :
        Except TrainError (TrainingState P × Int × Int)) = .ok out := h
    exact Except.noConfusion hbad
  · intro tk hk
    obtain ⟨ts', hrun, -, -, -, ht, -⟩ :=
      runTicks_ok [tk] (initTrainingState P t0 cfg)
        (by
          intro t htm
          rw [List.mem_singleton] at htm
          rwa [htm])
        (by simp [initTrainingState, findKey_num_timesteps_to_dict])
    refine train_ok_of_two_times _ _ _ hrun ?_
    simp only [initTrainingState, List.length_singleton, List.length_cons,
      List.length_nil] at ht
    omega

/-- Concrete instantiation of C9: from the fresh state, `train` with an
empty tick sequence fails with the IndexError. -/
theorem c9_train_needs_progress_tick_witness :
    train (initTrainingState Nat 0 (create_training_config true 1)) [] =
      .error .timesIndexError :=
  (c9_train_needs_progress_tick Nat 0 (create_training_config true 1)).1

/-- Claim C10 counterexample: when the metrics mapping lacks
`eval/episode_reward`, the KeyError is raised only after BOTH `times`
and `x_data` have grown by one — `x_data.append(num_steps)` executes
before the failing dictionary read — so the claim that `x_data` is
still untouched in that scenario is false. -/
theorem c10_x_data_also_grows :
    ¬ (∃ ts', progress_callback (initTrainingState Nat 0 (create_training_config true 1)) 5 7 []
          = .keyError "eval/episode_reward" ts' ∧
        ts'.times.length = 2 ∧ ts'.x_data.length = 0) := by
  rintro ⟨ts', heq, -, hx⟩
  have heq' : PCResult.keyError (P := Nat) "eval/episode_reward"
      { x_data := [5], y_data := [], y_dataerr := [], times := [0, 7],
        rl_config := (create_training_config true 1).to_dict, params := none } =
      PCResult.keyError "eval/episode_reward" ts' := heq
  injection heq' with h1 h2
  rw [← h2] at hx
  simp at hx

/-- Claim C10 (corrected): `progress_callback` is indeed non-atomic on a
missing metric key, but the partial state is one step further than
claimed: a mapping lacking `eval/episode_reward` raises after `times`
AND `x_data` have each grown by one entry (`y_data`, `y_dataerr`
untouched); a mapping lacking only `eval/episode_reward_std` raises
after `times`, `x_data` and `y_data` have grown (`y_dataerr`
untouched).  Either way the equal-length relationship is broken: the
state is not left unchanged on error. -/
theorem c10_partial_mutation (ts : TrainingState P) (n : Nat) (t : Int)
    (metrics : List (String × ℚ)) :
    (findKey "eval/episode_reward" metrics = none →
      progress_callback ts n t metrics = .keyError "eval/episode_reward"
        { ts with times := ts.times ++ [t], x_data := ts.x_data ++ [n] }) ∧
    (∀ r, findKey "eval/episode_reward" metrics = some r →
      findKey "eval/episode_reward_std" metrics = none →
      progress_callback ts n t metrics = .keyError "eval/episode_reward_std"
        { ts with times := ts.times ++ [t], x_data := ts.x_data ++ [n],
                  y_data := ts.y_data ++ [r] }) := by
  constructor
  · intro h
    simp [progress_callback, h]
  · intro r hr hs
    simp [progress_callback, hr, hs]

/-- Concrete instantiations of C10's amended statement: both failure
modes at explicit inputs. -/
theorem c10_partial_mutation_witness :
    (progress_callback (initTrainingState Nat 0 (create_training_config true 1)) 5 7 [] =
      .keyError "eval/episode_reward"
        { initTrainingState Nat 0 (create_training_config true 1) with
          times := (initTrainingState Nat 0 (create_training_config true 1)).times ++ [7],
          x_data := (initTrainingState Nat 0 (create_training_config true 1)).x_data ++ [5] }) ∧
    (progress_callback (initTrainingState Nat 0 (create_training_config true 1)) 5 7
        [("eval/episode_reward", 3)] =
      .keyError "eval/episode_reward_std"
        { initTrainingState Nat 0 (create_training_config true 1) with
          times := (initTrainingState Nat 0 (create_training_config true 1)).times ++ [7],
          x_data := (initTrainingState Nat 0 (create_training_config true 1)).x_data ++ [5],
          y_data := (initTrainingState Nat 0 (create_training_config true 1)).y_data ++ [3] }) :=
  ⟨(c10_partial_mutation (initTrainingState Nat 0 (create_training_config true 1)) 5 7 []).1 rfl,
   (c10_partial_mutation (initTrainingState Nat 0 (create_training_config true 1)) 5 7
      [("eval/episode_reward", 3)]).2 3 (by simp [findKey]) (by simp [findKey])⟩

end Runner
